import Mathlib

/-!
Verification development for the token-gated file exchange backend
(`src/controller.rs` and friends).  The Rust source is shallowly embedded:
pure functions become Lean functions, the filesystem and the multipart
stream become explicit values threaded through the model, and fallible
operations return `Except`.  Machine integers (`usize`) are modelled as
`Nat`: subtraction is only ever performed through the source's
`checked_sub` / `saturating_sub`, which coincide with `Option`-guarded and
truncated `Nat` subtraction, and no quantity in any claim approaches
`2 ^ 64`, so wrap-around is irrelevant.
-/

set_option autoImplicit false

/-! ## Path components and sanitization (`controller.rs` lines 22-36)

Rust's `Path::components()` splits a path string into components.  On the
Unix targets this server runs on, the kinds that can appear are `RootDir`
(a leading slash), `CurDir` (a literal leading "."), `ParentDir` (".."),
and `Normal` names.  We model a parsed path as a list of such components
and reproduce the standard library's string-to-components normalization
below (`pathComponents`). -/

/-- One component of a parsed path, mirroring `std::path::Component`
(Unix: no `Prefix` components). -/
inductive Component where
  | rootDir
  | curDir
  | parentDir
  | normal (name : String)
deriving DecidableEq, Repr

/-- Classify one slash-separated piece of a path string the way
`Path::components()` does: empty pieces and interior "." pieces vanish,
".." is a parent reference, everything else is a normal name. -/
def classifyPiece (piece : String) : Option Component :=
  if piece = "" then none
  else if piece = "." then none
  else if piece = ".." then some .parentDir
  else some (.normal piece)

/-- Splits a character list at every '/' into the list of the pieces in
between (both empty ends included), accumulating the current piece in
reverse; helper for `splitSlash`. -/
def splitSlashAux : List Char → List Char → List String
  | [], acc => [String.mk acc.reverse]
  | c :: rest, acc =>
    if c = '/' then String.mk acc.reverse :: splitSlashAux rest []
    else splitSlashAux rest (c :: acc)

/-- Splits a string on the path separator '/', keeping empty pieces, as
the slash-separated raw pieces of a Unix path. -/
def splitSlash (s : String) : List String :=
  splitSlashAux s.data []

/-- Model of `Path::components()` for Unix path strings: a leading slash
yields `rootDir`, a literal leading "." piece yields `curDir`, and the
remaining pieces are classified by `classifyPiece`. -/
def pathComponents (s : String) : List Component :=
  let pieces := splitSlash s
  let root : List Component := if s.data.head? = some '/' then [.rootDir] else []
  let cur : List Component :=
    if s.data.head? = some '/' then []
    else if pieces.head? = some "." then [.curDir] else []
  root ++ cur ++ pieces.filterMap classifyPiece

/-- Model of the component loop of `sanitize_path` (`controller.rs` 22-36):
normal components are pushed onto the buffer, a parent reference pops the
last pushed component (`PathBuf::pop`, a no-op on an empty buffer), and
every other component kind is dropped. -/
def sanitizeComponents (comps : List Component) : List Component :=
  comps.foldl
    (fun buf comp =>
      match comp with
      | .normal name => buf ++ [Component.normal name]
      | .parentDir => buf.dropLast
      | _ => buf)
    []

/-- Model of `sanitize_path` (`controller.rs` 22-36) on an arbitrary input
string: parse into components, then run the sanitizing fold. -/
def sanitize_path (s : String) : List Component :=
  sanitizeComponents (pathComponents s)

/-- Whether a component is a `Normal` name. -/
def Component.isNormal : Component → Bool
  | .normal _ => true
  | _ => false

/-- Filesystem resolution of a component list against a base directory
(given as its list of names from the root): normal names descend, parent
references ascend (possibly above the base), `curDir` is a no-op and
`rootDir` restarts from the filesystem root.  This is what the joined
path `base.join(...)` denotes on disk, symlinks aside. -/
def resolve (base : List String) : List Component → List String
  | [] => base
  | .normal n :: rest => resolve (base ++ [n]) rest
  | .parentDir :: rest => resolve base.dropLast rest
  | .curDir :: rest => resolve base rest
  | .rootDir :: rest => resolve [] rest

/-- The names carried by the normal components of a sanitized path, i.e.
the relative path that `storage_directory.join(sanitize_path(name))`
appends beneath the storage directory. -/
def sanitizedNames (s : String) : List String :=
  (sanitize_path s).filterMap
    (fun comp =>
      match comp with
      | .normal n => some n
      | _ => none)

/-! ## Token validation (`controller.rs` lines 116-129) -/

/-- An access token, a validated opaque string (`controller.rs` 88-89). -/
structure Token where
  value : String
deriving DecidableEq, Repr

/-- The per-character check of the token deserializer: underscore or ASCII
alphanumeric (`c == '_' || c.is_ascii_alphanumeric()`). -/
def tokenCharOk (c : Char) : Bool :=
  c = '_' || c.isAlphanum

/-- Model of `impl Deserialize for Token` (`controller.rs` 116-129): accept
the string iff every character passes `tokenCharOk`, otherwise fail with
the Malformed error "Invalid token". -/
def Token.deserialize (s : String) : Except String Token :=
  if s.data.all tokenCharOk then .ok ⟨s⟩ else .error "Invalid token"

/-! ## Timestamps (`controller.rs` lines 45-78)

The controller's `Timestamp` wraps a `chrono::NaiveDateTime` — a plain
calendar date and wall-clock time with no UTC offset.  It is persisted by
formatting with the format string "%FT%H:%M" (i.e. "YYYY-MM-DDTHH:MM":
year, month, day, hour and minute only) and re-read by parsing the same
format, the parsed seconds defaulting to zero.  We model the datetime to
second precision (sub-second precision, also dropped by the format, would
only duplicate what the `second` field already demonstrates), with the
`Nat` fields kept in range by the `valid` predicate below exactly as
chrono's constructors keep them in range by construction. -/

/-- A naive calendar datetime, mirroring `chrono::NaiveDateTime` to second
precision: no UTC offset is carried. -/
structure NaiveDateTime where
  year : Nat
  month : Nat
  day : Nat
  hour : Nat
  minute : Nat
  second : Nat
deriving DecidableEq, Repr

/-- The decimal digit character for a value below ten. -/
def digitChar : Nat → Char
  | 0 => '0'
  | 1 => '1'
  | 2 => '2'
  | 3 => '3'
  | 4 => '4'
  | 5 => '5'
  | 6 => '6'
  | 7 => '7'
  | 8 => '8'
  | _ => '9'

/-- The numeric value of a decimal digit character, if it is one. -/
def digitVal (c : Char) : Option Nat :=
  if c = '0' then some 0
  else if c = '1' then some 1
  else if c = '2' then some 2
  else if c = '3' then some 3
  else if c = '4' then some 4
  else if c = '5' then some 5
  else if c = '6' then some 6
  else if c = '7' then some 7
  else if c = '8' then some 8
  else if c = '9' then some 9
  else none

/-- Zero-padded two-digit decimal rendering (for the in-range month, day,
hour and minute fields, matching the "%m", "%d", "%H", "%M" specifiers). -/
def pad2Chars (n : Nat) : List Char :=
  [digitChar (n / 10 % 10), digitChar (n % 10)]

/-- Zero-padded four-digit decimal rendering (for the year field of an
in-range year, matching "%Y"). -/
def pad4Chars (n : Nat) : List Char :=
  [digitChar (n / 1000 % 10), digitChar (n / 100 % 10), digitChar (n / 10 % 10),
    digitChar (n % 10)]

/-- The characters of the persisted form of a timestamp, following the
format string "%FT%H:%M" ("%F" is "%Y-%m-%d"): seconds are not written. -/
def Timestamp.serializeChars (t : NaiveDateTime) : List Char :=
  pad4Chars t.year ++
    '-' :: (pad2Chars t.month ++
      '-' :: (pad2Chars t.day ++
        'T' :: (pad2Chars t.hour ++ ':' :: pad2Chars t.minute)))

/-- Model of `impl Serialize for Timestamp` (`controller.rs` 66-70): the
timestamp is persisted as the bare string produced by the "%FT%H:%M"
format — a naive datetime with no UTC offset and no seconds. -/
def Timestamp.serialize (t : NaiveDateTime) : String :=
  String.mk (Timestamp.serializeChars t)

/-- Reads exactly `width` decimal digits into a number, returning it with
the remaining input; fails on a non-digit or exhausted input. -/
def readFixedNatAux : Nat → Nat → List Char → Option (Nat × List Char)
  | 0, acc, cs => some (acc, cs)
  | width + 1, acc, cs =>
    match cs with
    | [] => none
    | c :: rest =>
      match digitVal c with
      | some d => readFixedNatAux width (acc * 10 + d) rest
      | none => none

/-- Consumes one expected literal character. -/
def expectChar (c : Char) : List Char → Option (List Char)
  | [] => none
  | c2 :: rest => if c2 = c then some rest else none

/-- Gregorian leap-year rule. -/
def isLeapYear (y : Nat) : Bool :=
  y % 4 = 0 && (y % 100 ≠ 0 || y % 400 = 0)

/-- Number of days in a month of the Gregorian calendar. -/
def daysInMonth (y m : Nat) : Nat :=
  if m = 2 then (if isLeapYear y then 29 else 28)
  else if m = 4 || m = 6 || m = 9 || m = 11 then 30
  else 31

/-- Parses the characters of a "%FT%H:%M" rendering into a datetime, with
the seconds — absent from the format — defaulting to zero, and the
calendar/clock ranges validated as chrono's parser validates them.  This
models `NaiveDateTime::parse_from_str(s, "%FT%H:%M")` on the zero-padded
strings the serializer emits. -/
def parseTimestampChars (cs : List Char) : Option NaiveDateTime := do
  let (y, cs) ← readFixedNatAux 4 0 cs
  let cs ← expectChar '-' cs
  let (mo, cs) ← readFixedNatAux 2 0 cs
  let cs ← expectChar '-' cs
  let (d, cs) ← readFixedNatAux 2 0 cs
  let cs ← expectChar 'T' cs
  let (h, cs) ← readFixedNatAux 2 0 cs
  let cs ← expectChar ':' cs
  let (mi, cs) ← readFixedNatAux 2 0 cs
  if cs = [] ∧ 1 ≤ mo ∧ mo ≤ 12 ∧ 1 ≤ d ∧ d ≤ daysInMonth y mo ∧ h < 24 ∧ mi < 60 then
    some ⟨y, mo, d, h, mi, 0⟩
  else
    none

/-- Model of `impl Deserialize for Timestamp` (`controller.rs` 72-78):
parse the stored string back with the same "%FT%H:%M" format, failing with
a Malformed error otherwise. -/
def Timestamp.deserialize (s : String) : Except String NaiveDateTime :=
  match parseTimestampChars s.data with
  | some t => .ok t
  | none => .error "input is not a valid timestamp"

/-- In-range fields of a datetime, guaranteed by construction for every
`chrono::NaiveDateTime` whose year fits the four digits of "%Y". -/
def NaiveDateTime.valid (t : NaiveDateTime) : Prop :=
  t.year ≤ 9999 ∧ 1 ≤ t.month ∧ t.month ≤ 12 ∧ 1 ≤ t.day ∧
    t.day ≤ daysInMonth t.year t.month ∧ t.hour < 24 ∧ t.minute < 60 ∧ t.second < 60

instance (t : NaiveDateTime) : Decidable t.valid := by
  unfold NaiveDateTime.valid; infer_instance

/-- Chronological strict order on naive datetimes (date first, then time),
matching the derived `PartialOrd`/`Ord` of `chrono::NaiveDateTime` used by
the expiry comparison `Timestamp::now() > token_config.expiry`. -/
def NaiveDateTime.ltb (a b : NaiveDateTime) : Bool :=
  if a.year ≠ b.year then decide (a.year < b.year)
  else if a.month ≠ b.month then decide (a.month < b.month)
  else if a.day ≠ b.day then decide (a.day < b.day)
  else if a.hour ≠ b.hour then decide (a.hour < b.hour)
  else if a.minute ≠ b.minute then decide (a.minute < b.minute)
  else decide (a.second < b.second)

/-! ## Persisted per-token configuration (`controller.rs` 272-295, 300-357)

A token's configuration lives in one TOML file per token directory.  The
`toml` crate round-trips the string and integer fields verbatim, so the
stored form of a config is modelled as a record whose `expiry` field holds
the string that `Timestamp`'s serde implementation produced - the one
lossy, offset-free step of the pipeline. -/

/-- An upload token's configuration (`controller.rs` 284-289). -/
structure UploadConfig where
  name : String
  expiry : NaiveDateTime
  space_quota : Nat
deriving DecidableEq, Repr

/-- A share token's configuration (`controller.rs` 272-276). -/
structure ShareConfig where
  name : String
  expiry : NaiveDateTime
deriving DecidableEq, Repr

/-- The on-disk (TOML) form of an `UploadConfig`: the `expiry` field holds
the serialized timestamp string. -/
structure StoredUploadConfig where
  name : String
  expiry : String
  space_quota : Nat
deriving DecidableEq, Repr

/-- The on-disk (TOML) form of a `ShareConfig`. -/
structure StoredShareConfig where
  name : String
  expiry : String
deriving DecidableEq, Repr

instance exceptDecEq {ε α : Type} [DecidableEq ε] [DecidableEq α] :
    DecidableEq (Except ε α) := fun x y =>
  match x, y with
  | .ok a, .ok b =>
    if h : a = b then isTrue (by rw [h])
    else isFalse (by intro hc; injection hc; contradiction)
  | .error a, .error b =>
    if h : a = b then isTrue (by rw [h])
    else isFalse (by intro hc; injection hc; contradiction)
  | .ok _, .error _ => isFalse (by intro hc; exact Except.noConfusion hc)
  | .error _, .ok _ => isFalse (by intro hc; exact Except.noConfusion hc)

/-- Model of `TokenConfigMutexCore::save_config` at type `UploadConfig`
(`controller.rs` 311-321): TOML-serialize every field, the timestamp via
`Timestamp.serialize`. -/
def UploadConfig.save (c : UploadConfig) : StoredUploadConfig :=
  ⟨c.name, Timestamp.serialize c.expiry, c.space_quota⟩

/-- Model of `TokenConfigMutexCore::load_config` at type `UploadConfig`
(`controller.rs` 300-309): TOML-parse every field, the timestamp via
`Timestamp.deserialize`. -/
def UploadConfig.load (s : StoredUploadConfig) : Except String UploadConfig :=
  (Timestamp.deserialize s.expiry).map fun e => ⟨s.name, e, s.space_quota⟩

/-- Model of `TokenConfigMutexCore::save_config` at type `ShareConfig`. -/
def ShareConfig.save (c : ShareConfig) : StoredShareConfig :=
  ⟨c.name, Timestamp.serialize c.expiry⟩

/-- Model of `TokenConfigMutexCore::load_config` at type `ShareConfig`. -/
def ShareConfig.load (s : StoredShareConfig) : Except String ShareConfig :=
  (Timestamp.deserialize s.expiry).map fun e => ⟨s.name, e⟩

/-- Whether a result is a success. -/
def resultOk {ε α : Type} : Except ε α → Bool
  | .ok _ => true
  | .error _ => false

/-! ## The load-modify-store primitive (`controller.rs` 297-357)

`TokenConfigMutexCore` owns every config file; all three operations run
with the single process-wide mutex held, so one call sees no interference
and is modelled as a pure function of the file's contents.  The contents
of the config file at `token_directory.join(TOKEN_FILENAME)` are an
`Option String` (`none` when the file is missing); serialization and
deserialization of the config type `C` are the function parameters that
the `serde` trait bounds supply in the source. -/

/-- Model of `TokenConfigMutexCore::load_config` (`controller.rs`
300-309): fail when the file is missing, otherwise deserialize (which may
itself fail on malformed contents). -/
def load_config {C : Type} (deser : String → Except String C)
    (disk : Option String) : Except String C :=
  match disk with
  | none => .error "Failed to read config file"
  | some contents => deser contents

/-- Model of `TokenConfigMutexCore::save_config` (`controller.rs`
311-321): serialize and overwrite the file. -/
def save_config {C : Type} (ser : C → String) (config : C) : Option String :=
  some (ser config)

/-- Model of `TokenConfigMutexCore::with_token_config_mut` (`controller.rs`
340-357), the sole read-modify-write primitive: load the config, run the
closure `f` (modelled as returning its result together with the mutated
config), and persist only if `f` succeeded, propagating `f`'s error and
leaving the file untouched otherwise.  Returns the call's result paired
with the file contents after the call. -/
def with_token_config_mut {C T : Type} (ser : C → String)
    (deser : String → Except String C) (disk : Option String)
    (f : C → Except String (T × C)) : Except String T × Option String :=
  match load_config deser disk with
  | .error e => (.error e, disk)
  | .ok config =>
    match f config with
    | .error e => (.error e, disk)
    | .ok (result, config2) => (.ok result, save_config ser config2)

/-! ## Staged file writes and multipart ingestion (`controller.rs` 174-266)

A `NewFile` is a staged write to one destination path.  The token's
`files/` directory is modelled as the list of the relative paths (name
lists) of the files present in it.  The behaviour of the outside world
during one field's ingestion is a script of events: a successfully read
and written chunk of a given size, a failed read of the field stream
(`blob.context("Failed to read data")`), or a failed write
(`write_all`); creation (`File::create`) and the final flush in `close`
get their own success flags.  File contents are not tracked - the claims
speak only of which files exist and how many bytes were counted. -/

/-- One step of the per-field streaming loop (`controller.rs` 244-247). -/
inductive IngestEvent where
  | chunk (size : Nat)
  | readFail
  | writeFail
deriving DecidableEq, Repr

/-- Whether an event is a successfully written chunk. -/
def IngestEvent.isChunk : IngestEvent → Bool
  | .chunk _ => true
  | _ => false

/-- Total size of the chunks of an event script. -/
def chunkSum (events : List IngestEvent) : Nat :=
  (events.map fun e =>
    match e with
    | .chunk n => n
    | _ => 0).sum

/-- One multipart field as the ingestion loop sees it: the declared file
name (absent for ordinary form fields), whether `File::create` succeeds,
the streaming events, and whether the final flush in `close` succeeds. -/
structure MultipartField where
  file_name : Option String
  createOk : Bool
  events : List IngestEvent
  flushOk : Bool
deriving DecidableEq, Repr

/-- One iteration of the outer `next_field` loop: either a field, or a
failure of `next_field()` itself. -/
inductive MultipartEvent where
  | field (fld : MultipartField)
  | nextFieldError
deriving DecidableEq, Repr

/-- Adds a file to the directory (`File::create` creates it, truncating
an existing file in place). -/
def createFile (path : List String) (files : List (List String)) :
    List (List String) :=
  if path ∈ files then files else path :: files

/-- Removes a file from the directory (`std::fs::remove_file` in the
`Drop` impl, `controller.rs` 258-266). -/
def removeFile (path : List String) (files : List (List String)) :
    List (List String) :=
  files.filter fun p => decide (p ≠ path)

/-- Model of the write loop of one field (`controller.rs` 244-247 with
`write_all`, 195-206): chunks accumulate into `size` (`self.size.0 +=
data.len()` after a successful write), and a read or write failure aborts
with the error. -/
def NewFile.write_loop : Nat → List IngestEvent → Except Unit Nat
  | size, [] => .ok size
  | size, .chunk n :: rest => NewFile.write_loop (size + n) rest
  | _, .readFail :: _ => .error ()
  | _, .writeFail :: _ => .error ()

/-- Model of the life of one `NewFile` from successful creation onward
(`controller.rs` 180-266): the file appears on disk at `path`; the write
loop runs; `close` flushes and, on success, disarms the destructor and
returns the tallied size; on any earlier error — or a failed flush — the
value is dropped with the file still armed and the `Drop` impl removes
the partial file.  Returns the resulting directory and the result of the
field. -/
def NewFile.run (files : List (List String)) (path : List String)
    (events : List IngestEvent) (flushOk : Bool) :
    List (List String) × Except Unit Nat :=
  let files1 := createFile path files
  match NewFile.write_loop 0 events with
  | .error e => (removeFile path files1, .error e)
  | .ok size =>
    if flushOk then (files1, .ok size) else (removeFile path files1, .error ())

/-- Model of `NewFile::from_multipart` (`controller.rs` 223-256): drain
the fields in order; fields without a file name are skipped; named fields
are written beneath the storage directory at their sanitized relative
path; `total_size` grows by `file.close()`'s return value only when the
field completes; any failure (a failed `next_field`, a failed create, a
failed read or write, a failed flush) aborts the whole call.  Returns the
directory contents, the accumulated total size, and whether the call
succeeded. -/
def NewFile.from_multipart (files : List (List String)) (total_size : Nat) :
    List MultipartEvent → List (List String) × Nat × Bool
  | [] => (files, total_size, true)
  | .nextFieldError :: _ => (files, total_size, false)
  | .field fld :: rest =>
    match fld.file_name with
    | none => NewFile.from_multipart files total_size rest
    | some file_name =>
      if fld.createOk then
        match NewFile.run files (sanitizedNames file_name) fld.events fld.flushOk with
        | (files2, .ok size) => NewFile.from_multipart files2 (total_size + size) rest
        | (files2, .error _) => (files2, total_size, false)
      else (files, total_size, false)

/-- Modelled from the claim's words (C10): the sum, over the fields the
aborting loop reaches, of the sizes of exactly those files whose
close/finalize succeeded. -/
def closedTotal : List MultipartEvent → Nat
  | [] => 0
  | .nextFieldError :: _ => 0
  | .field fld :: rest =>
    match fld.file_name with
    | none => closedTotal rest
    | some _ =>
      if fld.createOk && fld.events.all IngestEvent.isChunk && fld.flushOk then
        chunkSum fld.events + closedTotal rest
      else 0

/-! ## The upload redemption path (`controller.rs` 627-670)

`User::upload_files` is modelled as a function of the time of the call,
the declared content length, the multipart script, and the token's
persisted state (its config — `none` when missing — and its `files/`
directory); it returns the call's result and the state after the call.
The `u64 → usize` conversion of the declared length cannot fail on the
64-bit targets the server runs on, and both `update` steps run under the
process-wide mutex exactly as in C3's model. -/

/-- Model of `ByteCount::checked_sub` (`controller.rs` 135-137):
`usize::checked_sub`, which fails rather than wrapping. -/
def ByteCount.checked_sub (a b : Nat) : Option Nat :=
  if b ≤ a then some (a - b) else none

/-- Model of `ByteCount::saturating_sub` (`controller.rs` 139-141):
`usize::saturating_sub`, which clamps at zero — exactly `Nat`
subtraction. -/
def ByteCount.saturating_sub (a b : Nat) : Nat :=
  a - b

/-- The error kinds `upload_files` can produce. -/
inductive UploadError where
  | notFound
  | expired
  | outOfSpace
  | ingestFailed
deriving DecidableEq, Repr

/-- The persisted state of one upload token: its config file and its
`files/` directory. -/
structure UploadState where
  config : Option UploadConfig
  files : List (List String)
deriving DecidableEq, Repr

/-- Model of `User::upload_files` (`controller.rs` 627-670).  Step 1
(mutex held): load the config — `notFound` when missing; fail `expired`
when `now > expiry` (the closure's error makes `update` leave the file
untouched); fail `outOfSpace` when `checked_sub` of the declared length
fails; otherwise persist the decremented quota.  Step 2 (lock released):
ingest the fields.  Step 3 (mutex held, unconditional): refund
`request_size.saturating_sub(actual_file_size)` onto the quota, persist,
and propagate step 2's error if any. -/
def User.upload_files (now : NaiveDateTime) (request_size : Nat)
    (stream : List MultipartEvent) (st : UploadState) :
    Except UploadError Unit × UploadState :=
  match st.config with
  | none => (.error .notFound, st)
  | some cfg =>
    if NaiveDateTime.ltb cfg.expiry now then (.error .expired, st)
    else
      match ByteCount.checked_sub cfg.space_quota request_size with
      | none => (.error .outOfSpace, st)
      | some quota1 =>
        match NewFile.from_multipart st.files 0 stream with
        | (files2, actual_file_size, ok) =>
          let quota2 := quota1 + ByteCount.saturating_sub request_size actual_file_size
          ((if ok then .ok () else .error .ingestFailed),
            { config := some { cfg with space_quota := quota2 }, files := files2 })

/-! ## Theorems: path sanitization (C5) and token validation (C9) -/

theorem sanitizeComponents_foldl_all_normal (comps : List Component) :
    ∀ buf : List Component, buf.all Component.isNormal = true →
      (comps.foldl
        (fun buf comp =>
          match comp with
          | .normal name => buf ++ [Component.normal name]
          | .parentDir => buf.dropLast
          | _ => buf)
        buf).all Component.isNormal = true := by
  induction comps with
  | nil => intro buf hbuf; simpa using hbuf
  | cons comp rest ih =>
    intro buf hbuf
    cases comp with
    | rootDir => exact ih buf hbuf
    | curDir => exact ih buf hbuf
    | parentDir =>
      refine ih buf.dropLast ?_
      simp only [List.all_eq_true] at hbuf ⊢
      intro c hc
      exact hbuf c (List.dropLast_subset _ hc)
    | normal name =>
      refine ih (buf ++ [Component.normal name]) ?_
      simp only [List.all_eq_true, List.mem_append, List.mem_singleton] at hbuf ⊢
      rintro c (hc | rfl)
      · exact hbuf c hc
      · rfl

/-- Every component surviving `sanitize_path` is a normal name. -/
theorem sanitize_path_all_normal (s : String) :
    (sanitize_path s).all Component.isNormal = true :=
  sanitizeComponents_foldl_all_normal (pathComponents s) [] rfl

theorem resolve_of_all_normal (comps : List Component) :
    ∀ base : List String, comps.all Component.isNormal = true →
      ∃ rest : List String, resolve base comps = base ++ rest := by
  induction comps with
  | nil => intro base _; exact ⟨[], by simp [resolve]⟩
  | cons comp tail ih =>
    intro base hall
    simp only [List.all_cons, Bool.and_eq_true] at hall
    cases comp with
    | rootDir => simp [Component.isNormal] at hall
    | curDir => simp [Component.isNormal] at hall
    | parentDir => simp [Component.isNormal] at hall
    | normal name =>
      obtain ⟨rest, hrest⟩ := ih (base ++ [name]) hall.2
      exact ⟨name :: rest, by simp [resolve, hrest]⟩

/-- C5.  Write-path sanitization never escapes the base: for every input
string, `sanitize_path` keeps only normal components, so joining its
output to any base directory resolves to the base itself or a descendant
of it; in particular sanitizing "../../etc/passwd" under base /a/b yields
/a/b/etc/passwd, which stays under /a/b. -/
theorem sanitize_path_never_escapes :
    (∀ (s : String) (base : List String),
      (sanitize_path s).all Component.isNormal = true ∧
      ∃ rest : List String, resolve base (sanitize_path s) = base ++ rest) ∧
    resolve ["a", "b"] (sanitize_path "../../etc/passwd") = ["a", "b", "etc", "passwd"] := by
  refine ⟨fun s base => ⟨sanitize_path_all_normal s, ?_⟩, by decide⟩
  exact resolve_of_all_normal (sanitize_path s) base (sanitize_path_all_normal s)

/-- C9.  Token validation totality: deserializing a string as a `Token`
succeeds iff every character lies in the class [A-Za-z0-9_]. -/
theorem token_deserialize_ok_iff (s : String) :
    (Token.deserialize s).isOk = true ↔
      ∀ c ∈ s.data,
        ('A' ≤ c ∧ c ≤ 'Z') ∨ ('a' ≤ c ∧ c ≤ 'z') ∨ ('0' ≤ c ∧ c ≤ '9') ∨ c = '_' := by
  have hchar : ∀ c : Char, tokenCharOk c = true ↔
      ('A' ≤ c ∧ c ≤ 'Z') ∨ ('a' ≤ c ∧ c ≤ 'z') ∨ ('0' ≤ c ∧ c ≤ '9') ∨ c = '_' := by
    intro c
    simp only [tokenCharOk, Char.isAlphanum, Char.isAlpha, Char.isUpper, Char.isLower,
      Char.isDigit, Bool.or_eq_true, decide_eq_true_eq, Bool.and_eq_true, ge_iff_le,
      Char.le_def]
    constructor
    · rintro (h | (⟨h1, h2⟩ | ⟨h1, h2⟩) | ⟨h1, h2⟩)
      · exact Or.inr (Or.inr (Or.inr h))
      · exact Or.inl ⟨h1, h2⟩
      · exact Or.inr (Or.inl ⟨h1, h2⟩)
      · exact Or.inr (Or.inr (Or.inl ⟨h1, h2⟩))
    · rintro (⟨h1, h2⟩ | ⟨h1, h2⟩ | ⟨h1, h2⟩ | h)
      · exact Or.inr (Or.inl (Or.inl ⟨h1, h2⟩))
      · exact Or.inr (Or.inl (Or.inr ⟨h1, h2⟩))
      · exact Or.inr (Or.inr ⟨h1, h2⟩)
      · exact Or.inl h
  constructor
  · intro h c hc
    have hall : s.data.all tokenCharOk = true := by
      by_contra hno
      simp only [Token.deserialize, hno] at h
      simp [Except.isOk, Except.toBool] at h
    exact (hchar c).1 ((List.all_eq_true.1 hall) c hc)
  · intro h
    have hall : s.data.all tokenCharOk = true :=
      List.all_eq_true.2 fun c hc => (hchar c).2 (h c hc)
    simp [Token.deserialize, hall, Except.isOk, Except.toBool]

/-! ## Theorems: timestamp persistence (C7, C8) -/

theorem digitVal_digitChar : ∀ k, k < 10 → digitVal (digitChar k) = some k := by
  decide

theorem readFixed_pad2 (n : Nat) (h : n < 100) (rest : List Char) :
    readFixedNatAux 2 0 (pad2Chars n ++ rest) = some (n, rest) := by
  have h1 : digitVal (digitChar (n / 10 % 10)) = some (n / 10 % 10) :=
    digitVal_digitChar _ (Nat.mod_lt _ (by norm_num))
  have h2 : digitVal (digitChar (n % 10)) = some (n % 10) :=
    digitVal_digitChar _ (Nat.mod_lt _ (by norm_num))
  simp only [pad2Chars, List.cons_append, List.nil_append, readFixedNatAux, h1, h2]
  have : (0 * 10 + n / 10 % 10) * 10 + n % 10 = n := by omega
  rw [this]

theorem readFixed_pad4 (n : Nat) (h : n < 10000) (rest : List Char) :
    readFixedNatAux 4 0 (pad4Chars n ++ rest) = some (n, rest) := by
  have h1 : digitVal (digitChar (n / 1000 % 10)) = some (n / 1000 % 10) :=
    digitVal_digitChar _ (Nat.mod_lt _ (by norm_num))
  have h2 : digitVal (digitChar (n / 100 % 10)) = some (n / 100 % 10) :=
    digitVal_digitChar _ (Nat.mod_lt _ (by norm_num))
  have h3 : digitVal (digitChar (n / 10 % 10)) = some (n / 10 % 10) :=
    digitVal_digitChar _ (Nat.mod_lt _ (by norm_num))
  have h4 : digitVal (digitChar (n % 10)) = some (n % 10) :=
    digitVal_digitChar _ (Nat.mod_lt _ (by norm_num))
  simp only [pad4Chars, List.cons_append, List.nil_append, readFixedNatAux, h1, h2, h3, h4]
  have : (((0 * 10 + n / 1000 % 10) * 10 + n / 100 % 10) * 10 + n / 10 % 10) * 10 + n % 10
      = n := by omega
  rw [this]

theorem daysInMonth_le_31 (y m : Nat) : daysInMonth y m ≤ 31 := by
  unfold daysInMonth
  split
  · split <;> omega
  · split <;> omega

/-- Persist-then-load truncates a timestamp to minute precision: the
"%FT%H:%M" format drops the seconds and the parser restores them as 0. -/
theorem timestamp_serialize_roundtrip (t : NaiveDateTime) (h : t.valid) :
    Timestamp.deserialize (Timestamp.serialize t) =
      .ok ⟨t.year, t.month, t.day, t.hour, t.minute, 0⟩ := by
  obtain ⟨hy, hmo1, hmo2, hd1, hd2, hh, hmi, _⟩ := h
  have hd31 : t.day < 100 := by
    have := daysInMonth_le_31 t.year t.month
    omega
  have e4 := readFixed_pad4 t.year (by omega)
    ('-' :: (pad2Chars t.month ++
      '-' :: (pad2Chars t.day ++ 'T' :: (pad2Chars t.hour ++ ':' :: pad2Chars t.minute))))
  have emo := readFixed_pad2 t.month (by omega)
    ('-' :: (pad2Chars t.day ++ 'T' :: (pad2Chars t.hour ++ ':' :: pad2Chars t.minute)))
  have ed := readFixed_pad2 t.day hd31
    ('T' :: (pad2Chars t.hour ++ ':' :: pad2Chars t.minute))
  have eh := readFixed_pad2 t.hour (by omega) (':' :: pad2Chars t.minute)
  have emi : readFixedNatAux 2 0 (pad2Chars t.minute) = some (t.minute, []) := by
    have := readFixed_pad2 t.minute (by omega) []
    simpa using this
  simp [Timestamp.deserialize, Timestamp.serialize, Timestamp.serializeChars,
    parseTimestampChars, e4, emo, ed, eh, emi, expectChar, hmo1, hmo2, hd1, hd2, hh, hmi]

/-- C7 counterexample.  The round-trip claim fails on an expiry with a
nonzero seconds field: persisting an `UploadConfig` whose expiry is
2024-05-06 07:08:30 and loading it back yields second 0, not 30. -/
theorem config_roundtrip_counterexample :
    UploadConfig.load (UploadConfig.save ⟨"backup", ⟨2024, 5, 6, 7, 8, 30⟩, 1000⟩) =
        .ok ⟨"backup", ⟨2024, 5, 6, 7, 8, 0⟩, 1000⟩ ∧
    UploadConfig.load (UploadConfig.save ⟨"backup", ⟨2024, 5, 6, 7, 8, 30⟩, 1000⟩) ≠
        .ok ⟨"backup", ⟨2024, 5, 6, 7, 8, 30⟩, 1000⟩ := by
  decide

/-- C7 (amended).  Config persistence round-trip holds for every
`UploadConfig` and `ShareConfig` whose expiry is minute-aligned (seconds
zero), the only precision "%FT%H:%M" can store; in general loading returns
the saved value with the expiry truncated to the minute. -/
theorem config_roundtrip_minute_precision (u : UploadConfig) (s : ShareConfig)
    (hu : u.expiry.valid) (hu0 : u.expiry.second = 0)
    (hs : s.expiry.valid) (hs0 : s.expiry.second = 0) :
    UploadConfig.load (UploadConfig.save u) = .ok u ∧
    ShareConfig.load (ShareConfig.save s) = .ok s := by
  obtain ⟨un, ue, uq⟩ := u
  obtain ⟨sn, se⟩ := s
  obtain ⟨uy, umo, ud, uh, umi, usec⟩ := ue
  obtain ⟨sy, smo, sd, sh, smi, ssec⟩ := se
  simp only at hu0 hs0
  subst hu0 hs0
  constructor
  · simp [UploadConfig.load, UploadConfig.save, timestamp_serialize_roundtrip _ hu,
      Except.map]
  · simp [ShareConfig.load, ShareConfig.save, timestamp_serialize_roundtrip _ hs,
      Except.map]

/-- C7 witness: the amended round-trip at concrete minute-aligned
configs. -/
theorem config_roundtrip_minute_precision_witness :
    UploadConfig.load (UploadConfig.save ⟨"n", ⟨2030, 1, 2, 3, 4, 0⟩, 9⟩) =
        .ok ⟨"n", ⟨2030, 1, 2, 3, 4, 0⟩, 9⟩ ∧
    ShareConfig.load (ShareConfig.save ⟨"m", ⟨2031, 12, 31, 23, 59, 0⟩⟩) =
        .ok ⟨"m", ⟨2031, 12, 31, 23, 59, 0⟩⟩ :=
  config_roundtrip_minute_precision ⟨"n", ⟨2030, 1, 2, 3, 4, 0⟩, 9⟩
    ⟨"m", ⟨2031, 12, 31, 23, 59, 0⟩⟩ (by decide) rfl (by decide) rfl

theorem digitChar_not_offset (k : Nat) :
    ((digitChar k != 'Z') && (digitChar k != '+')) = true := by
  unfold digitChar
  split <;> decide

/-- C8.  The persisted form of a timestamp is a bare naive datetime
string: the expiry 2024-05-06 07:08 is stored as "2024-05-06T07:08", and
for every timestamp the stored string is exactly 16 characters of date and
wall-clock time containing no offset designator ('Z' or '+') — no UTC
offset is ever written. -/
theorem persisted_timestamp_is_naive :
    Timestamp.serialize ⟨2024, 5, 6, 7, 8, 0⟩ = "2024-05-06T07:08" ∧
    ∀ t : NaiveDateTime, (Timestamp.serialize t).length = 16 ∧
      ((Timestamp.serialize t).data.all fun c => (c != 'Z') && (c != '+')) = true := by
  refine ⟨by decide, fun t => ⟨?_, ?_⟩⟩
  · simp [Timestamp.serialize, Timestamp.serializeChars, String.length,
      pad4Chars, pad2Chars]
  · simp [Timestamp.serialize, Timestamp.serializeChars, pad4Chars, pad2Chars,
      digitChar_not_offset]

/-! ## Theorems: update atomicity (C3) -/

/-- C3.  Update atomicity: for every config type, stored contents, and
closure, the read-modify-write primitive persists the serialized modified
record iff the closure succeeds; when the closure fails, the stored value
is exactly what it was before the call and the closure's error is
propagated. -/
theorem with_token_config_mut_atomic {C T : Type} (ser : C → String)
    (deser : String → Except String C) (disk : Option String)
    (f : C → Except String (T × C)) (contents : String) (config : C)
    (hdisk : disk = some contents) (hload : deser contents = .ok config) :
    (∀ e, f config = .error e →
      with_token_config_mut ser deser disk f = (.error e, disk)) ∧
    (∀ r config2, f config = .ok (r, config2) →
      with_token_config_mut ser deser disk f = (.ok r, save_config ser config2)) := by
  subst hdisk
  constructor
  · intro e hf
    simp [with_token_config_mut, load_config, hload, hf]
  · intro r config2 hf
    simp [with_token_config_mut, load_config, save_config, hload, hf]

/-- C3 witness: both outcomes of the primitive at concrete inputs. -/
theorem with_token_config_mut_atomic_witness :
    with_token_config_mut (fun c => c) (fun s => .ok s) (some "cfg")
        (fun c => .ok (c ++ "!", c ++ "2")) = (.ok "cfg!", some "cfg2") ∧
    with_token_config_mut (fun c => c) (fun s => .ok s) (some "cfg")
        (fun _ => (.error "boom" : Except String (String × String))) =
      (.error "boom", some "cfg") := by
  constructor
  · exact (with_token_config_mut_atomic (fun c => c) (fun s => .ok s) (some "cfg")
      (fun c => .ok (c ++ "!", c ++ "2")) "cfg" "cfg" rfl rfl).2 "cfg!" "cfg2" rfl
  · exact (with_token_config_mut_atomic (fun c => c) (fun s => .ok s) (some "cfg")
      (fun _ => (.error "boom" : Except String (String × String))) "cfg" "cfg" rfl rfl).1
      "boom" rfl

/-! ## Theorems: staged-write cleanup (C6) and the ingestion total (C10) -/

/-- C6.  Single-file all-or-nothing: for every staged write, the
destination file is present after the field exactly when close succeeded;
on every failing exit path (read error, write error, failed flush) the
guaranteed release has deleted the partial file, and on success no
cleanup deletes it. -/
theorem newfile_all_or_nothing (files : List (List String)) (path : List String)
    (events : List IngestEvent) (flushOk : Bool) :
    path ∈ (NewFile.run files path events flushOk).1 ↔
      resultOk (NewFile.run files path events flushOk).2 = true := by
  have hmem : path ∈ createFile path files := by
    unfold createFile
    split
    · assumption
    · exact List.mem_cons_self _ _
  have hnot : path ∉ removeFile path (createFile path files) := by
    unfold removeFile
    intro hmem2
    have := List.of_mem_filter hmem2
    simp at this
  cases hw : NewFile.write_loop 0 events with
  | error e =>
    simp [NewFile.run, hw, resultOk, hmem, hnot]
  | ok size =>
    cases flushOk with
    | true => simp [NewFile.run, hw, resultOk, hmem]
    | false => simp [NewFile.run, hw, resultOk, hmem, hnot]

theorem write_loop_ok (size : Nat) (events : List IngestEvent)
    (h : events.all IngestEvent.isChunk = true) :
    NewFile.write_loop size events = .ok (size + chunkSum events) := by
  induction events generalizing size with
  | nil => simp [NewFile.write_loop, chunkSum]
  | cons e rest ih =>
    cases e with
    | chunk n =>
      simp only [List.all_cons, IngestEvent.isChunk, Bool.true_and] at h
      have := ih (size + n) h
      simp only [NewFile.write_loop, this, chunkSum, List.map_cons, List.sum_cons]
      congr 1
      omega
    | readFail => simp [List.all_cons, IngestEvent.isChunk] at h
    | writeFail => simp [List.all_cons, IngestEvent.isChunk] at h

theorem write_loop_err (size : Nat) (events : List IngestEvent)
    (h : events.all IngestEvent.isChunk = false) :
    NewFile.write_loop size events = .error () := by
  induction events generalizing size with
  | nil => simp at h
  | cons e rest ih =>
    cases e with
    | chunk n =>
      simp only [List.all_cons, IngestEvent.isChunk, Bool.true_and] at h
      simp [NewFile.write_loop, ih (size + n) h]
    | readFail => simp [NewFile.write_loop]
    | writeFail => simp [NewFile.write_loop]

/-- C10.  The accumulated total byte count of multipart ingestion grows by
exactly the sizes of the files whose close succeeded: bytes streamed to a
field that fails before finalization are never added, so the later refund
of declaredLength saturating-minus total treats them as never written. -/
theorem from_multipart_total_closed (stream : List MultipartEvent)
    (files : List (List String)) (total_size : Nat) :
    (NewFile.from_multipart files total_size stream).2.1 =
      total_size + closedTotal stream := by
  induction stream generalizing files total_size with
  | nil => simp [NewFile.from_multipart, closedTotal]
  | cons ev rest ih =>
    cases ev with
    | nextFieldError => simp [NewFile.from_multipart, closedTotal]
    | field fld =>
      cases hn : fld.file_name with
      | none => simp [NewFile.from_multipart, closedTotal, hn, ih]
      | some nm =>
        cases hc : fld.createOk with
        | false => simp [NewFile.from_multipart, closedTotal, hn, hc]
        | true =>
          cases hall : fld.events.all IngestEvent.isChunk with
          | false =>
            have hrun := write_loop_err 0 fld.events hall
            simp [NewFile.from_multipart, closedTotal, hn, hc, hall, NewFile.run, hrun]
          | true =>
            have hrun := write_loop_ok 0 fld.events hall
            cases hf : fld.flushOk with
            | false =>
              simp [NewFile.from_multipart, closedTotal, hn, hc, hall, hf,
                NewFile.run, hrun]
            | true =>
              simp [NewFile.from_multipart, closedTotal, hn, hc, hall, hf,
                NewFile.run, hrun, ih]
              omega

/-! ## Theorems: quota accounting (C2), expiry (C4), partial failure (C1) -/

/-- C4.  Expired redemption is a no-op: when the loaded config's expiry
lies strictly before the time of the call, `upload_files` fails with
Expired and the state — the persisted config and the files directory —
is returned unchanged. -/
theorem upload_files_expired (now : NaiveDateTime) (st : UploadState)
    (cfg : UploadConfig) (request_size : Nat) (stream : List MultipartEvent)
    (hc : st.config = some cfg)
    (hexp : NaiveDateTime.ltb cfg.expiry now = true) :
    User.upload_files now request_size stream st = (.error .expired, st) := by
  simp [User.upload_files, hc, hexp]

/-- C4 witness: a token expired at 2030-01-01 00:00 redeemed in 2031. -/
theorem upload_files_expired_witness :
    User.upload_files ⟨2031, 1, 1, 0, 0, 0⟩ 10
        [.field ⟨some "x", true, [.chunk 10], true⟩]
        ⟨some ⟨"u", ⟨2030, 1, 1, 0, 0, 0⟩, 1000⟩, []⟩ =
      (.error .expired, ⟨some ⟨"u", ⟨2030, 1, 1, 0, 0, 0⟩, 1000⟩, []⟩) :=
  upload_files_expired ⟨2031, 1, 1, 0, 0, 0⟩ _ ⟨"u", ⟨2030, 1, 1, 0, 0, 0⟩, 1000⟩ _ _
    rfl (by decide)

/-- C2.  Quota accounting for a non-expired token with persisted quota Q
and declared length L: if L > Q the call fails OutOfSpace with the state
unchanged; if L ≤ Q and ingestion succeeds writing exactly L bytes, the
call succeeds and the persisted quota is Q − L. -/
theorem upload_files_quota (now : NaiveDateTime) (st : UploadState)
    (cfg : UploadConfig) (request_size : Nat) (stream : List MultipartEvent)
    (hc : st.config = some cfg)
    (hlive : NaiveDateTime.ltb cfg.expiry now = false) :
    (cfg.space_quota < request_size →
      User.upload_files now request_size stream st = (.error .outOfSpace, st)) ∧
    (request_size ≤ cfg.space_quota →
      ∀ files2 : List (List String),
        NewFile.from_multipart st.files 0 stream = (files2, request_size, true) →
        User.upload_files now request_size stream st =
          (.ok (),
            ⟨some { cfg with space_quota := cfg.space_quota - request_size },
              files2⟩)) := by
  constructor
  · intro hlt
    have hsub : ByteCount.checked_sub cfg.space_quota request_size = none := by
      simp only [ByteCount.checked_sub, ite_eq_right_iff]
      omega
    simp [User.upload_files, hc, hlive, hsub]
  · intro hle files2 hingest
    have hsub : ByteCount.checked_sub cfg.space_quota request_size =
        some (cfg.space_quota - request_size) := by
      simp [ByteCount.checked_sub, hle]
    simp [User.upload_files, hc, hlive, hsub, hingest, ByteCount.saturating_sub]

/-- C2 witness: quota 1000, declaring 800 and writing 800 leaves 200; a
subsequent request declaring 300 fails OutOfSpace with quota still 200. -/
theorem upload_files_quota_witness :
    User.upload_files ⟨2025, 1, 1, 0, 0, 0⟩ 800
        [.field ⟨some "a", true, [.chunk 800], true⟩]
        ⟨some ⟨"u", ⟨2030, 1, 1, 0, 0, 0⟩, 1000⟩, []⟩ =
      (.ok (), ⟨some ⟨"u", ⟨2030, 1, 1, 0, 0, 0⟩, 200⟩, [["a"]]⟩) ∧
    User.upload_files ⟨2025, 1, 1, 0, 0, 0⟩ 300
        [.field ⟨some "b", true, [.chunk 300], true⟩]
        ⟨some ⟨"u", ⟨2030, 1, 1, 0, 0, 0⟩, 200⟩, [["a"]]⟩ =
      (.error .outOfSpace, ⟨some ⟨"u", ⟨2030, 1, 1, 0, 0, 0⟩, 200⟩, [["a"]]⟩) := by
  constructor
  · exact (upload_files_quota ⟨2025, 1, 1, 0, 0, 0⟩ _
      ⟨"u", ⟨2030, 1, 1, 0, 0, 0⟩, 1000⟩ _ _ rfl (by decide)).2
      (by decide) [["a"]] (by decide)
  · exact (upload_files_quota ⟨2025, 1, 1, 0, 0, 0⟩ _
      ⟨"u", ⟨2030, 1, 1, 0, 0, 0⟩, 200⟩ _ _ rfl (by decide)).1 (by decide)

/-- C1 counterexample.  In the claimed scenario — quota 1000, declared
length 500, the field stream failing after 200 bytes were written — the
persisted quota after the call is not the claimed 700. -/
theorem partial_failure_refund_counterexample :
    Option.map UploadConfig.space_quota
        (User.upload_files ⟨2025, 6, 1, 12, 0, 0⟩ 500
          [.field ⟨some "data.bin", true, [.chunk 200, .readFail], true⟩]
          ⟨some ⟨"upload", ⟨2030, 1, 1, 0, 0, 0⟩, 1000⟩, []⟩).2.config ≠
      some 700 := by
  decide

/-- C1 (amended).  Partial-failure refund: quota 1000, declared length
500, stream erroring after 200 written bytes — the failed file's bytes
are never added to the total (its close never ran) and its partial file
is deleted, so the full declared 500 is refunded: the persisted quota is
1000 − 500 + (500 − 0) = 1000, the files directory is empty, and the
ingestion error is propagated. -/
theorem partial_failure_refund_amended :
    User.upload_files ⟨2025, 6, 1, 12, 0, 0⟩ 500
        [.field ⟨some "data.bin", true, [.chunk 200, .readFail], true⟩]
        ⟨some ⟨"upload", ⟨2030, 1, 1, 0, 0, 0⟩, 1000⟩, []⟩ =
      (.error .ingestFailed, ⟨some ⟨"upload", ⟨2030, 1, 1, 0, 0, 0⟩, 1000⟩, []⟩) := by
  decide
